import Mathlib

/-!
Verification of the geometric core of the blairlab fusion-capture scripts.

The development shallowly embeds the pure parts of `src/capture.py` (and the
second variant `src/CaptureView/CaptureView.py`) into Lean:

* Python floats are modelled as exact numbers: `ℚ` for the calibration
  tables, unit conversion and grid interpolation (whose source arithmetic is
  rational), and `ℝ` for the trigonometric pose geometry.
* Python dicts of calibration knots are modelled as association lists
  `List (Int × ℚ)` with a first-match lookup (`lookupKey`); the bracketing
  `for` loop inside `_interp_linear` is the recursion `findBracket`.
* Python strings are modelled as `String` with the relevant `str` methods
  (`strip`, `split(",")`, `startswith("#")`, `int(...)`) re-implemented over
  the character list so that they compute by `decide`/`rfl`.
* The render loop of `run` is modelled as the list of render requests it
  dispatches (`rendersForDir`, `rendersForCell`, `runRenders`); the actual
  host rendering calls are outside the embedded core.
-/

/-! ## Python string primitives (str.strip, str.split(","), startswith, int) -/

def stripChars (cs : List Char) : List Char :=
  ((cs.dropWhile Char.isWhitespace).reverse.dropWhile Char.isWhitespace).reverse

/-- Model of Python `str.strip()` (whitespace on both ends). -/
def pyStrip (s : String) : String := ⟨stripChars s.data⟩

def splitCommaL (cs : List Char) : List (List Char) :=
  match cs with
  | [] => [[]]
  | c :: rest =>
    let r := splitCommaL rest
    if c = ',' then [] :: r
    else
      match r with
      | [] => [[c]]
      | h :: t => (c :: h) :: t

/-- Model of Python `str.split(",")`. -/
def pySplitComma (s : String) : List String := (splitCommaL s.data).map (fun cs => ⟨cs⟩)

/-- Model of Python `str.startswith("#")`. -/
def startsWithHash (s : String) : Bool :=
  match s.data with
  | '#' :: _ => true
  | _ => false

def digitsVal (cs : List Char) : Option Nat :=
  match cs with
  | [] => none
  | _ => if cs.all Char.isDigit then some (cs.foldl (fun n c => 10 * n + (c.toNat - 48)) 0) else none

/-- Model of Python `int(s)`: strip whitespace, optional sign, decimal digits;
any other shape raises (here: `none`). -/
def parseIntPy (s : String) : Option Int :=
  match stripChars s.data with
  | [] => none
  | c :: rest =>
    if c = '-' then (digitsVal rest).map (fun n => -(n : Int))
    else if c = '+' then (digitsVal rest).map (fun n => (n : Int))
    else (digitsVal (c :: rest)).map (fun n => (n : Int))

/-! ## Dict lookup and the bracket-search loop of `_interp_linear` -/

/-- First-match association lookup: model of `knot_map[index]` /
`index in knot_map` for a dict with (as in the source) distinct keys. -/
def lookupKey (km : List (Int × ℚ)) (k : Int) : Option ℚ :=
  match km with
  | [] => none
  | (a, v) :: rest => if k = a then some v else lookupKey rest k

/-- The loop `for i in range(len(keys) - 1): if keys[i] <= index <= keys[i+1]`
of `_interp_linear`: scan adjacent pairs of the sorted key list, return the
first bracketing pair. -/
def findBracket (keys : List Int) (index : Int) : Option (Int × Int) :=
  match keys with
  | [] => none
  | [_] => none
  | k0 :: k1 :: rest =>
    if k0 ≤ index ∧ index ≤ k1 then some (k0, k1)
    else findBracket (k1 :: rest) index

/-! ## Constants of `src/capture.py` -/

def IN_PER_CM : ℚ := 1 / 2.54
def CM_PER_IN : ℚ := 2.54

def GRID_Z_IN : ℚ := 33.577
def EYE_RAISE_IN : ℚ := 2.5
def EYE_Z_IN : ℚ := GRID_Z_IN + EYE_RAISE_IN

def EYE_SEPARATION_IN : ℚ := 0.5
def HALF_BASE_IN : ℚ := EYE_SEPARATION_IN / 2
def YAW_OFFSET_DEG : ℝ := 50.0
def PITCH_UP_DEG : ℝ := 15.0
def VFOV_DEG : ℝ := 150.0

def IMG_W : Nat := 128
def IMG_H : Nat := 128

def X_FROM_GRID_Y_IN : List (Int × ℚ) :=
  [(0, 8.039), (1, 16.336), (5, 55.519), (9, 94.702), (10, 102.999)]

def Y_FROM_GRID_X_IN : List (Int × ℚ) :=
  [(0, 6.02), (1, 14.317), (5, 53.50), (9, 92.683), (10, 100.98)]

/-! ## `_interp_linear`, `grid_to_model_in`, unit conversion, geometry helpers -/

/-- Body of `_interp_linear` after the exact-key test, with
`keys = sorted(knot_map.keys())` passed in. An empty key list (empty dict,
on which the source would crash on `keys[0]`) yields `none`. -/
def interpNoKey (index : Int) (km : List (Int × ℚ)) (keys : List Int) : Option ℚ :=
  match keys with
  | [] => none
  | kfirst :: krest =>
    let klast := (kfirst :: krest).getLast (List.cons_ne_nil _ _)
    if index ≤ kfirst then lookupKey km kfirst
    else if klast ≤ index then lookupKey km klast
    else
      match findBracket (kfirst :: krest) index with
      | some (k0, k1) =>
        if k1 = k0 then lookupKey km kfirst
        else
          match lookupKey km k0, lookupKey km k1 with
          | some v0, some v1 =>
            some (v0 * (1 - ((index - k0 : Int) : ℚ) / ((k1 - k0 : Int) : ℚ)) +
                  v1 * (((index - k0 : Int) : ℚ) / ((k1 - k0 : Int) : ℚ)))
          | _, _ => none
      | none => lookupKey km kfirst

/-- `_interp_linear(index, knot_map)` from `src/capture.py`. -/
def interp_linear (index : Int) (km : List (Int × ℚ)) : Option ℚ :=
  match lookupKey km index with
  | some v => some v
  | none => interpNoKey index km (List.insertionSort (· ≤ ·) (km.map Prod.fst))

/-- `grid_to_model_in(gx, gy)`: model X from grid y, model Y from grid x
(axis swap), Z fixed. -/
def grid_to_model_in (gx gy : Int) : Option ℚ × Option ℚ × ℚ :=
  (interp_linear gy X_FROM_GRID_Y_IN, interp_linear gx Y_FROM_GRID_X_IN, GRID_Z_IN)

/-- `inches_to_cm(x_in)`. -/
def inches_to_cm (x : ℚ) : ℚ := x * CM_PER_IN

/-- `math.radians(deg)`. -/
noncomputable def radians (deg : ℝ) : ℝ := deg * Real.pi / 180

/-- `rot2d(vx, vy, deg)`. -/
noncomputable def rot2d (vx vy deg : ℝ) : ℝ × ℝ :=
  let rad := radians deg
  let c := Real.cos rad
  let s := Real.sin rad
  (vx * c - vy * s, vx * s + vy * c)

open Classical in
/-- `norm2d(vx, vy)`: `math.hypot(vx, vy)` is `sqrt (vx² + vy²)`. -/
noncomputable def norm2d (vx vy : ℝ) : ℝ × ℝ :=
  let mag := Real.sqrt (vx ^ 2 + vy ^ 2)
  if mag ≤ 1e-9 then (0.0, 0.0) else (vx / mag, vy / mag)

/-- `add2d(a, b)`. -/
def add2d (a b : ℚ × ℚ) : ℚ × ℚ := (a.1 + b.1, a.2 + b.2)

/-- `scale2d(v, s)`. -/
def scale2d (v : ℚ × ℚ) (s : ℚ) : ℚ × ℚ := (v.1 * s, v.2 * s)

/-- `is_corner(gx, gy)`. -/
def is_corner (gx gy : Int) : Bool :=
  (gx == 0 || gx == 10) && (gy == 0 || gy == 10)

/-! ## `parse_positions_txt` -/

/-- The skip test `if not ln or ln.startswith("#")` of the parse loop. -/
def skippable (l : String) : Bool := l.data.isEmpty || startsWithHash l

/-- One position line after the job prefix has been found: split on commas,
require exactly two parts, parse both as integers (`int` raises → `none`). -/
def cellOfLine (l : String) : Option (Int × Int) :=
  match pySplitComma l with
  | [a, b] =>
    match parseIntPy a, parseIntPy b with
    | some gx, some gy => some (gx, gy)
    | _, _ => none
  | _ => none

/-- The `for ln in lines` loop of `parse_positions_txt`, carrying the
`prefix`-so-far and accumulated positions. -/
def parseLoop : Option String → List (Int × Int) → List String → Option String × List (Int × Int)
  | pfx?, acc, [] => (pfx?, acc)
  | pfx?, acc, ln :: rest =>
    if skippable ln then parseLoop pfx? acc rest
    else
      match pfx? with
      | none => parseLoop (some ln) acc rest
      | some p =>
        match cellOfLine ln with
        | some c => parseLoop (some p) (acc ++ [c]) rest
        | none => parseLoop (some p) acc rest

def missingMsg : String := "positions.txt missing file_prefix on first line."

/-- `parse_positions_txt`, abstracted over the lines read from the file
(the source strips every line up front). -/
def parse_positions_txt (rawLines : List String) :
    Except String (String × List (Int × Int)) :=
  match parseLoop none [] (rawLines.map pyStrip) with
  | (none, _) => Except.error missingMsg
  | (some p, ps) => Except.ok (p, ps)

/-- Specification-side description of which cells the parse loop keeps from
the lines after the prefix: non-skippable lines that parse as `gx,gy`. -/
def collectCells (lines : List String) : List (Int × Int) :=
  lines.filterMap (fun l => if skippable l then none else cellOfLine l)

/-! ## The render loop of `run` -/

/-- Grid cell to model XY in centimeters, as in the local `model_xy_cm` of
`run` (the concrete knot tables are non-empty, so the interpolation always
succeeds; `getD 0` is the total rendering of that fact). -/
noncomputable def model_xy_cm (gx gy : Int) : ℝ × ℝ :=
  (((inches_to_cm (((grid_to_model_in gx gy).1).getD 0) : ℚ) : ℝ),
   ((inches_to_cm (((grid_to_model_in gx gy).2.1).getD 0) : ℚ) : ℝ))

noncomputable def p_55 : ℝ × ℝ := model_xy_cm 5 5
noncomputable def p_50 : ℝ × ℝ := model_xy_cm 5 0
noncomputable def p_105 : ℝ × ℝ := model_xy_cm 10 5

noncomputable def north2 : ℝ × ℝ := norm2d (p_50.1 - p_55.1) (p_50.2 - p_55.2)
noncomputable def east2 : ℝ × ℝ := norm2d (p_105.1 - p_55.1) (p_105.2 - p_55.2)
noncomputable def south2 : ℝ × ℝ := (-north2.1, -north2.2)
noncomputable def west2 : ℝ × ℝ := (-east2.1, -east2.2)

noncomputable def ne2 : ℝ × ℝ := norm2d (north2.1 + east2.1) (north2.2 + east2.2)
noncomputable def se2 : ℝ × ℝ := norm2d (south2.1 + east2.1) (south2.2 + east2.2)
noncomputable def sw2 : ℝ × ℝ := norm2d (south2.1 + west2.1) (south2.2 + west2.2)
noncomputable def nw2 : ℝ × ℝ := norm2d (north2.1 + west2.1) (north2.2 + west2.2)

def northName : String := "north"
def eastName : String := "east"
def southName : String := "south"
def westName : String := "west"
def neName : String := "ne"
def seName : String := "se"
def swName : String := "sw"
def nwName : String := "nw"

noncomputable def dirs_cardinal : List (String × (ℝ × ℝ)) :=
  [(northName, north2), (eastName, east2), (southName, south2), (westName, west2)]

noncomputable def dirs_diagonal : List (String × (ℝ × ℝ)) :=
  [(neName, ne2), (seName, se2), (swName, sw2), (nwName, nw2)]

/-- `dirs = dirs_diagonal if is_corner(gx, gy) else dirs_cardinal`. -/
noncomputable def dirsFor (gx gy : Int) : List (String × (ℝ × ℝ)) :=
  if is_corner gx gy then dirs_diagonal else dirs_cardinal

/-- One render request dispatched to the host: output file, camera eye point
and camera forward vector (all in centimeters / host units). -/
structure RenderReq where
  file : String
  eye : ℝ × ℝ × ℝ
  fwd : ℝ × ℝ × ℝ

def leftTag : String := "left"
def rightTag : String := "right"
def pngExt : String := ".png"
def usep : String := "_"

/-- Output filename convention `{prefix}_{gx}_{gy}_{dir_name}_{eye}.png`. -/
def mkFile (pfx : String) (gx gy : Int) (dname eyeName : String) : String :=
  pfx ++ usep ++ toString gx ++ usep ++ toString gy ++ usep ++ dname ++ usep ++ eyeName ++ pngExt

/-- Body of the direction loop of `run`: for one cell center (cm) and one
base direction, the two render requests (left eye first, then right eye). -/
noncomputable def rendersForDir (pfx : String) (gx gy : Int) (cx cy cz : ℝ)
    (d : String × (ℝ × ℝ)) : List RenderReq :=
  let base_fwd2 := d.2
  let right2 : ℝ × ℝ := (base_fwd2.2, -base_fwd2.1)
  let hbcm : ℝ := ((inches_to_cm HALF_BASE_IN : ℚ) : ℝ)
  let left_eye_xy : ℝ × ℝ := (cx - right2.1 * hbcm, cy - right2.2 * hbcm)
  let right_eye_xy : ℝ × ℝ := (cx + right2.1 * hbcm, cy + right2.2 * hbcm)
  let left_fwd2 := rot2d base_fwd2.1 base_fwd2.2 YAW_OFFSET_DEG
  let right_fwd2 := rot2d base_fwd2.1 base_fwd2.2 (-YAW_OFFSET_DEG)
  let cp := Real.cos (radians PITCH_UP_DEG)
  let sp := Real.sin (radians PITCH_UP_DEG)
  let left_fwd3 : ℝ × ℝ × ℝ := (left_fwd2.1 * cp, left_fwd2.2 * cp, sp)
  let right_fwd3 : ℝ × ℝ × ℝ := (right_fwd2.1 * cp, right_fwd2.2 * cp, sp)
  [⟨mkFile pfx gx gy d.1 leftTag, (left_eye_xy.1, left_eye_xy.2, cz), left_fwd3⟩,
   ⟨mkFile pfx gx gy d.1 rightTag, (right_eye_xy.1, right_eye_xy.2, cz), right_fwd3⟩]

/-- Body of the position loop of `run`: all render requests for one cell. -/
noncomputable def rendersForCell (pfx : String) (gx gy : Int) : List RenderReq :=
  let cx := ((inches_to_cm (((grid_to_model_in gx gy).1).getD 0) : ℚ) : ℝ)
  let cy := ((inches_to_cm (((grid_to_model_in gx gy).2.1).getD 0) : ℚ) : ℝ)
  let cz := ((inches_to_cm EYE_Z_IN : ℚ) : ℝ)
  (dirsFor gx gy).flatMap (rendersForDir pfx gx gy cx cy cz)

/-- The full render sequence of `run` for a parsed job. -/
noncomputable def runRenders (pfx : String) (positions : List (Int × Int)) : List RenderReq :=
  positions.flatMap (fun p => rendersForCell pfx p.1 p.2)

/-- The knot mapping `{0: 8.039, 1: 16.336, 5: 55.519}` of the spec's
interpolation scenario. -/
def scenarioKnots : List (Int × ℚ) := [(0, 8.039), (1, 16.336), (5, 55.519)]

/-- Specification-side vocabulary for claim C1: `k0` and `k1` are adjacent
keys of the knot mapping, i.e. both are keys, `k0 < k1`, and no key lies
strictly between them. -/
def adjacentKeys (km : List (Int × ℚ)) (k0 k1 : Int) : Prop :=
  k0 ∈ km.map Prod.fst ∧ k1 ∈ km.map Prod.fst ∧ k0 < k1 ∧
    ∀ k ∈ km.map Prod.fst, k ≤ k0 ∨ k1 ≤ k

/-! ## The second source variant, `src/CaptureView/CaptureView.py`

The geometric core of the variant, embedded independently so that the two
embeddings can be compared. The dict lookup (`lookupKey`) and the bracket
loop (`findBracket`) model the same Python constructs in both files and are
shared. -/

namespace CaptureView

def CM_PER_IN : ℚ := 2.54

def GRID_Z_IN : ℚ := 33.577
def EYE_RAISE_IN : ℚ := 2.5
def EYE_Z_IN : ℚ := GRID_Z_IN + EYE_RAISE_IN

def EYE_SEPARATION_IN : ℚ := 0.5
def HALF_BASE_IN : ℚ := EYE_SEPARATION_IN / 2
def YAW_OFFSET_DEG : ℝ := 50.0
def PITCH_UP_DEG : ℝ := 15.0
def VFOV_DEG : ℝ := 150.0

def IMG_W : Nat := 128
def IMG_H : Nat := 128

def X_FROM_GRID_Y_IN : List (Int × ℚ) :=
  [(0, 8.039), (1, 16.336), (5, 55.519), (9, 94.702), (10, 102.999)]

def Y_FROM_GRID_X_IN : List (Int × ℚ) :=
  [(0, 6.02), (1, 14.317), (5, 53.50), (9, 92.683), (10, 100.98)]

/-- Body of the variant's `_interp_linear` after the exact-key test. -/
def interpNoKey (index : Int) (km : List (Int × ℚ)) (keys : List Int) : Option ℚ :=
  match keys with
  | [] => none
  | kfirst :: krest =>
    let klast := (kfirst :: krest).getLast (List.cons_ne_nil _ _)
    if index ≤ kfirst then lookupKey km kfirst
    else if klast ≤ index then lookupKey km klast
    else
      match findBracket (kfirst :: krest) index with
      | some (k0, k1) =>
        if k1 = k0 then lookupKey km kfirst
        else
          match lookupKey km k0, lookupKey km k1 with
          | some v0, some v1 =>
            some (v0 * (1 - ((index - k0 : Int) : ℚ) / ((k1 - k0 : Int) : ℚ)) +
                  v1 * (((index - k0 : Int) : ℚ) / ((k1 - k0 : Int) : ℚ)))
          | _, _ => none
      | none => lookupKey km kfirst

/-- `_interp_linear(index, knot_map)` from `src/CaptureView/CaptureView.py`. -/
def interp_linear (index : Int) (km : List (Int × ℚ)) : Option ℚ :=
  match lookupKey km index with
  | some v => some v
  | none => interpNoKey index km (List.insertionSort (· ≤ ·) (km.map Prod.fst))

/-- The variant's `grid_to_model_in(gx, gy)`. -/
def grid_to_model_in (gx gy : Int) : Option ℚ × Option ℚ × ℚ :=
  (interp_linear gy X_FROM_GRID_Y_IN, interp_linear gx Y_FROM_GRID_X_IN, GRID_Z_IN)

/-- The variant's `inches_to_cm(x_in)`. -/
def inches_to_cm (x : ℚ) : ℚ := x * CM_PER_IN

/-- The variant's `rot2d(vx, vy, deg)`. -/
noncomputable def rot2d (vx vy deg : ℝ) : ℝ × ℝ :=
  let rad := radians deg
  let c := Real.cos rad
  let s := Real.sin rad
  (vx * c - vy * s, vx * s + vy * c)

open Classical in
/-- The variant's `norm2d(vx, vy)`. -/
noncomputable def norm2d (vx vy : ℝ) : ℝ × ℝ :=
  let mag := Real.sqrt (vx ^ 2 + vy ^ 2)
  if mag ≤ 1e-9 then (0.0, 0.0) else (vx / mag, vy / mag)

/-- The variant's `is_corner(gx, gy)`. -/
def is_corner (gx gy : Int) : Bool :=
  (gx == 0 || gx == 10) && (gy == 0 || gy == 10)

end CaptureView

/-! ## Helper lemmas about the lookup, the sorted key list and the bracket loop -/

theorem lookupKey_eq_none {km : List (Int × ℚ)} {k : Int} :
    lookupKey km k = none ↔ k ∉ km.map Prod.fst := by
  induction km with
  | nil => simp [lookupKey]
  | cons hd tl ih =>
    obtain ⟨a, v⟩ := hd
    by_cases hk : k = a
    · subst hk; simp [lookupKey]
    · simp [lookupKey, hk, ih]

theorem sorted_head_le {a : Int} {l : List Int}
    (hs : (a :: l).Sorted (· ≤ ·)) {x : Int} (hx : x ∈ a :: l) : a ≤ x := by
  rcases List.mem_cons.mp hx with rfl | hx'
  · exact le_refl x
  · exact (List.sorted_cons.mp hs).1 x hx'

theorem sorted_le_getLast : ∀ (l : List Int) (hl : l ≠ []),
    l.Sorted (· ≤ ·) → ∀ x ∈ l, x ≤ l.getLast hl := by
  intro l
  induction l with
  | nil => intro hl; exact absurd rfl hl
  | cons a t ih =>
    intro _ hs x hx
    cases t with
    | nil =>
      rcases List.mem_cons.mp hx with rfl | h
      · simp [List.getLast]
      · simp at h
    | cons b t' =>
      rw [List.getLast_cons (List.cons_ne_nil b t')]
      rcases List.mem_cons.mp hx with rfl | hx'
      · exact (List.sorted_cons.mp hs).1 _ (List.getLast_mem _)
      · exact ih (List.cons_ne_nil b t') (List.sorted_cons.mp hs).2 x hx'

theorem findBracket_eq : ∀ (l : List Int), l.Pairwise (· < ·) →
    ∀ (k0 k1 index : Int), k0 ∈ l → k1 ∈ l → k0 < index → index < k1 →
    (∀ k ∈ l, k ≤ k0 ∨ k1 ≤ k) → findBracket l index = some (k0, k1) := by
  intro l
  induction l with
  | nil => intro _ k0 k1 index h0 _ _ _ _; simp at h0
  | cons a t ih =>
    intro hpw k0 k1 index h0 h1 hi0 hi1 hdich
    cases t with
    | nil =>
      simp at h0 h1
      omega
    | cons b t' =>
      have hab : a < b := (List.pairwise_cons.mp hpw).1 b (by simp)
      have hpw' : (b :: t').Pairwise (· < ·) := (List.pairwise_cons.mp hpw).2
      have ha_lt : ∀ x ∈ b :: t', a < x := fun x hx =>
        (List.pairwise_cons.mp hpw).1 x hx
      have hb_lt : ∀ x ∈ t', b < x := fun x hx => (List.pairwise_cons.mp hpw').1 x hx
      have ha_k0 : a ≤ k0 := by
        rcases List.mem_cons.mp h0 with heq | h0'
        · omega
        · exact le_of_lt (ha_lt k0 h0')
      by_cases hcond : a ≤ index ∧ index ≤ b
      · have hk1b : k1 ≤ b := by
          rcases hdich b (by simp) with hb | hb
          · omega
          · exact hb
        have hk0a : k0 = a := by
          rcases List.mem_cons.mp h0 with heq | h0'
          · exact heq
          · rcases List.mem_cons.mp h0' with heq' | h0''
            · omega
            · have := hb_lt k0 h0''
              omega
        have hk1b' : k1 = b := by
          rcases List.mem_cons.mp h1 with heq | h1'
          · omega
          · rcases List.mem_cons.mp h1' with heq' | h1''
            · exact heq'
            · have := hb_lt k1 h1''
              omega
        simp only [findBracket, if_pos hcond, hk0a, hk1b']
      · have hbi : b < index := by omega
        have hk0bt : k0 ∈ b :: t' := by
          rcases List.mem_cons.mp h0 with heq | h0'
          · exfalso
            rcases hdich b (by simp) with hb | hb <;> omega
          · exact h0'
        have hk1bt : k1 ∈ b :: t' := by
          rcases List.mem_cons.mp h1 with heq | h1'
          · exfalso; omega
          · exact h1'
        have hrec : findBracket (a :: b :: t') index = findBracket (b :: t') index := by
          simp only [findBracket, if_neg hcond]
        rw [hrec]
        exact ih hpw' k0 k1 index hk0bt hk1bt hi0 hi1
          (fun k hk => hdich k (List.mem_cons.mpr (Or.inr hk)))

theorem interpNoKey_min (km : List (Int × ℚ)) (keys : List Int) (index kmin : Int)
    (hs : keys.Sorted (· ≤ ·)) (hmem : kmin ∈ keys)
    (hmin : ∀ k ∈ keys, kmin ≤ k) (hlt : index < kmin) :
    interpNoKey index km keys = lookupKey km kmin := by
  cases keys with
  | nil => simp at hmem
  | cons kf rest =>
    have h1 : kmin ≤ kf := hmin kf (by simp)
    have h2 : kf ≤ kmin := sorted_head_le hs hmem
    have hkf : kf = kmin := le_antisymm h2 h1
    simp only [interpNoKey]
    rw [if_pos (by omega : index ≤ kf), hkf]

theorem interpNoKey_max (km : List (Int × ℚ)) (keys : List Int) (index kmax : Int)
    (hs : keys.Sorted (· ≤ ·)) (hmem : kmax ∈ keys)
    (hmax : ∀ k ∈ keys, k ≤ kmax) (hlt : kmax < index) :
    interpNoKey index km keys = lookupKey km kmax := by
  cases keys with
  | nil => simp at hmem
  | cons kf rest =>
    have hkf : kf ≤ kmax := hmax kf (by simp)
    have h1 : (kf :: rest).getLast (List.cons_ne_nil kf rest) ≤ kmax :=
      hmax _ (List.getLast_mem _)
    have h2 : kmax ≤ (kf :: rest).getLast (List.cons_ne_nil kf rest) :=
      sorted_le_getLast _ _ hs kmax hmem
    simp only [interpNoKey]
    rw [if_neg (by omega : ¬ index ≤ kf), if_pos (by omega), le_antisymm h1 h2]

theorem interpNoKey_bracket (km : List (Int × ℚ)) (keys : List Int) (index k0 k1 : Int)
    (v0 v1 : ℚ) (hpw : keys.Pairwise (· < ·))
    (h0 : k0 ∈ keys) (h1 : k1 ∈ keys) (hi0 : k0 < index) (hi1 : index < k1)
    (hdich : ∀ k ∈ keys, k ≤ k0 ∨ k1 ≤ k)
    (hl0 : lookupKey km k0 = some v0) (hl1 : lookupKey km k1 = some v1) :
    interpNoKey index km keys =
      some (v0 * (1 - ((index - k0 : Int) : ℚ) / ((k1 - k0 : Int) : ℚ)) +
            v1 * (((index - k0 : Int) : ℚ) / ((k1 - k0 : Int) : ℚ))) := by
  have hsorted : keys.Sorted (· ≤ ·) := hpw.imp le_of_lt
  cases keys with
  | nil => simp at h0
  | cons kf rest =>
    have hkf_le_k0 : kf ≤ k0 := sorted_head_le hsorted h0
    have hklast := sorted_le_getLast (kf :: rest) (List.cons_ne_nil kf rest) hsorted k1 h1
    have hfb : findBracket (kf :: rest) index = some (k0, k1) :=
      findBracket_eq (kf :: rest) hpw k0 k1 index h0 h1 hi0 hi1 hdich
    have hne : ¬ (k1 = k0) := by omega
    simp only [interpNoKey]
    rw [if_neg (by omega : ¬ index ≤ kf),
      if_neg (by omega : ¬ (kf :: rest).getLast (List.cons_ne_nil kf rest) ≤ index)]
    simp only [hfb, if_neg hne, hl0, hl1]

/-! ## Helper lemmas about the parse loop -/

theorem parseLoop_some (p : String) : ∀ (lines : List String) (acc : List (Int × Int)),
    parseLoop (some p) acc lines = (some p, acc ++ collectCells lines) := by
  intro lines
  induction lines with
  | nil => intro acc; simp [parseLoop, collectCells]
  | cons ln rest ih =>
    intro acc
    by_cases hskip : skippable ln
    · simp [parseLoop, hskip, collectCells, List.filterMap_cons, ih]
    · rcases hc : cellOfLine ln with _ | c
      · simp [parseLoop, hskip, hc, collectCells, List.filterMap_cons, ih]
      · simp [parseLoop, hskip, hc, collectCells, List.filterMap_cons, ih]

theorem parseLoop_none_eq_none_iff : ∀ (lines : List String),
    (parseLoop none [] lines).1 = none ↔ ∀ l ∈ lines, skippable l := by
  intro lines
  induction lines with
  | nil => simp [parseLoop]
  | cons ln rest ih =>
    by_cases hskip : skippable ln
    · simp [parseLoop, hskip, ih]
    · simp [parseLoop, hskip, parseLoop_some]

theorem parseLoop_none_found (p : String) : ∀ (skipped rest : List String),
    (∀ l ∈ skipped, skippable l) → ¬ (skippable p = true) →
    parseLoop none [] (skipped ++ p :: rest) = (some p, collectCells rest) := by
  intro skipped
  induction skipped with
  | nil =>
    intro rest _ hp
    simp [parseLoop, hp, parseLoop_some]
  | cons l skipped' ih =>
    intro rest hsk hp
    have hl : skippable l := hsk l (by simp)
    simp only [List.cons_append, parseLoop, hl, if_true]
    exact ih rest (fun x hx => hsk x (by simp [hx])) hp

/-! ## Claim theorems -/

/-- C1: for every knot mapping with distinct integer keys and every integer
index, `_interp_linear` agrees with the spec's reference definition: an exact
knot key returns its stored value; an index below the minimum (resp. above
the maximum) key returns the boundary knot's value; an index strictly
between two adjacent sorted keys `k0 < k1` returns
`v0 + (index - k0)/(k1 - k0) * (v1 - v0)`. -/
theorem interp_linear_matches_reference (km : List (Int × ℚ))
    (hnd : (km.map Prod.fst).Nodup) (index : Int) :
    (∀ v, lookupKey km index = some v → interp_linear index km = some v) ∧
    (∀ kmin, kmin ∈ km.map Prod.fst → (∀ k ∈ km.map Prod.fst, kmin ≤ k) →
      index < kmin → interp_linear index km = lookupKey km kmin) ∧
    (∀ kmax, kmax ∈ km.map Prod.fst → (∀ k ∈ km.map Prod.fst, k ≤ kmax) →
      kmax < index → interp_linear index km = lookupKey km kmax) ∧
    (∀ k0 k1 v0 v1, adjacentKeys km k0 k1 → k0 < index → index < k1 →
      lookupKey km k0 = some v0 → lookupKey km k1 = some v1 →
      interp_linear index km =
        some (v0 + ((index : ℚ) - (k0 : ℚ)) / ((k1 : ℚ) - (k0 : ℚ)) * (v1 - v0))) := by
  have hperm := List.perm_insertionSort (· ≤ ·) (km.map Prod.fst)
  have hsorted := List.sorted_insertionSort (· ≤ ·) (km.map Prod.fst)
  have hndS : (List.insertionSort (· ≤ ·) (km.map Prod.fst)).Nodup :=
    hperm.nodup_iff.mpr hnd
  have hpw : (List.insertionSort (· ≤ ·) (km.map Prod.fst)).Pairwise (· < ·) :=
    hsorted.lt_of_le hndS
  refine ⟨?_, ?_, ?_, ?_⟩
  · intro v hv
    simp [interp_linear, hv]
  · intro kmin hmem hminle hlt
    have hnotin : index ∉ km.map Prod.fst := fun hin => by
      have := hminle index hin; omega
    have hlknone : lookupKey km index = none := lookupKey_eq_none.mpr hnotin
    have hstep : interp_linear index km =
        interpNoKey index km (List.insertionSort (· ≤ ·) (km.map Prod.fst)) := by
      simp [interp_linear, hlknone]
    rw [hstep]
    exact interpNoKey_min km _ index kmin hsorted (hperm.mem_iff.mpr hmem)
      (fun k hk => hminle k (hperm.mem_iff.mp hk)) hlt
  · intro kmax hmem hmaxle hlt
    have hnotin : index ∉ km.map Prod.fst := fun hin => by
      have := hmaxle index hin; omega
    have hlknone : lookupKey km index = none := lookupKey_eq_none.mpr hnotin
    have hstep : interp_linear index km =
        interpNoKey index km (List.insertionSort (· ≤ ·) (km.map Prod.fst)) := by
      simp [interp_linear, hlknone]
    rw [hstep]
    exact interpNoKey_max km _ index kmax hsorted (hperm.mem_iff.mpr hmem)
      (fun k hk => hmaxle k (hperm.mem_iff.mp hk)) hlt
  · intro k0 k1 v0 v1 hadj hi0 hi1 hl0 hl1
    obtain ⟨h0m, h1m, hk01, hdich⟩ := hadj
    have hnotin : index ∉ km.map Prod.fst := fun hin => by
      rcases hdich index hin with h | h <;> omega
    have hlknone : lookupKey km index = none := lookupKey_eq_none.mpr hnotin
    have hstep : interp_linear index km =
        interpNoKey index km (List.insertionSort (· ≤ ·) (km.map Prod.fst)) := by
      simp [interp_linear, hlknone]
    rw [hstep, interpNoKey_bracket km _ index k0 k1 v0 v1 hpw
      (hperm.mem_iff.mpr h0m) (hperm.mem_iff.mpr h1m) hi0 hi1
      (fun k hk => hdich k (hperm.mem_iff.mp hk)) hl0 hl1]
    congr 1
    push_cast
    ring

/-- Witness for C1 at the knot mapping `{0 ↦ 2, 2 ↦ 10}` and index `1`
(bracket case, adjacent keys `0 < 2`). -/
theorem interp_linear_matches_reference_witness :
    interp_linear 1 [((0 : Int), (2 : ℚ)), (2, 10)] =
      some (2 + (((1 : Int) : ℚ) - ((0 : Int) : ℚ)) /
        (((2 : Int) : ℚ) - ((0 : Int) : ℚ)) * (10 - 2)) :=
  (interp_linear_matches_reference [((0 : Int), (2 : ℚ)), (2, 10)] (by decide) 1).2.2.2
    0 2 2 10 ⟨by decide, by decide, by decide, by decide⟩ (by decide) (by decide)
    (by norm_num [lookupKey]) (by norm_num [lookupKey])

/-- C2 counterexample: on the scenario knots `{0: 8.039, 1: 16.336, 5: 55.519}`
the code does not return the claimed value `27.6305` at index `3`. -/
theorem interp_scenario_ne_claimed :
    interp_linear 3 scenarioKnots ≠ some 27.6305 := by
  have h : interp_linear 3 scenarioKnots = some 35.9275 := by
    simp [interp_linear, lookupKey, scenarioKnots, interpNoKey, findBracket,
      List.insertionSort, List.orderedInsert, List.getLast]
    norm_num
  rw [h]
  intro hcontra
  have h2 := Option.some.inj hcontra
  norm_num at h2

/-- C2 (amended): on the scenario knots, `interpolate(3)` brackets between
the keys `1` and `5`, so it returns
`16.336 + (3-1)/(5-1) * (55.519 - 16.336) = 35.9275` (the claimed arithmetic
mistakenly used the value `8.039` of the knot at key `0` as `v0`). -/
theorem interp_scenario_actual_value :
    interp_linear 3 scenarioKnots = some 35.9275 ∧
    (35.9275 : ℚ) = 16.336 + (3 - 1) / (5 - 1) * (55.519 - 16.336) := by
  constructor
  · simp [interp_linear, lookupKey, scenarioKnots, interpNoKey, findBracket,
      List.insertionSort, List.orderedInsert, List.getLast]
    norm_num
  · norm_num

/-- C3: the grid-to-model mapping swaps the axes — model X interpolates the
grid's Y index over the X knot table, model Y interpolates the grid's X index
over the Y knot table, and model Z is the fixed constant `33.577`. -/
theorem grid_to_model_axis_swap :
    ∀ gx gy : Int,
      (grid_to_model_in gx gy).1 = interp_linear gy X_FROM_GRID_Y_IN ∧
      (grid_to_model_in gx gy).2.1 = interp_linear gx Y_FROM_GRID_X_IN ∧
      (grid_to_model_in gx gy).2.2 = GRID_Z_IN ∧ GRID_Z_IN = 33.577 :=
  fun _ _ => ⟨rfl, rfl, rfl, rfl⟩

/-- C4: `norm2d` returns exactly `(0, 0)` whenever the magnitude is at most
`1e-9` (including small non-zero vectors); otherwise it returns a positive
scalar multiple of the input with magnitude exactly `1` (hence within the
`1e-6` tolerance), and it is a total function (never raises). -/
theorem norm2d_cases (vx vy : ℝ) :
    (Real.sqrt (vx ^ 2 + vy ^ 2) ≤ 1e-9 → norm2d vx vy = (0, 0)) ∧
    (1e-9 < Real.sqrt (vx ^ 2 + vy ^ 2) →
      Real.sqrt ((norm2d vx vy).1 ^ 2 + (norm2d vx vy).2 ^ 2) = 1 ∧
      |Real.sqrt ((norm2d vx vy).1 ^ 2 + (norm2d vx vy).2 ^ 2) - 1| ≤ 1e-6 ∧
      ∃ c : ℝ, 0 < c ∧ (norm2d vx vy).1 = c * vx ∧ (norm2d vx vy).2 = c * vy) := by
  constructor
  · intro h
    simp only [norm2d, if_pos h]
    norm_num
  · intro h
    have hpos : 0 < Real.sqrt (vx ^ 2 + vy ^ 2) := lt_trans (by norm_num) h
    have hsum : 0 < vx ^ 2 + vy ^ 2 := Real.sqrt_pos.mp hpos
    have hmag : ¬ Real.sqrt (vx ^ 2 + vy ^ 2) ≤ 1e-9 := not_le.mpr h
    have hunit : Real.sqrt ((norm2d vx vy).1 ^ 2 + (norm2d vx vy).2 ^ 2) = 1 := by
      simp only [norm2d, hmag, if_false]
      rw [div_pow, div_pow, div_add_div_same, Real.sq_sqrt (le_of_lt hsum),
        div_self (ne_of_gt hsum)]
      exact Real.sqrt_one
    refine ⟨hunit, by rw [hunit]; norm_num, (Real.sqrt (vx ^ 2 + vy ^ 2))⁻¹, ?_, ?_, ?_⟩
    · exact inv_pos.mpr hpos
    · simp only [norm2d, hmag, if_false]
      rw [div_eq_mul_inv, mul_comm]
    · simp only [norm2d, hmag, if_false]
      rw [div_eq_mul_inv, mul_comm]

/-- Witness for C4 at the vector `(3, 4)`: above the threshold, normalized
to the unit vector `(3/5, 4/5)` of magnitude `1`. -/
theorem norm2d_cases_witness :
    Real.sqrt (((norm2d 3 4).1) ^ 2 + ((norm2d 3 4).2) ^ 2) = 1 ∧
    ∃ c : ℝ, 0 < c ∧ (norm2d 3 4).1 = c * 3 ∧ (norm2d 3 4).2 = c * 4 := by
  have hgt : (1e-9 : ℝ) < Real.sqrt ((3 : ℝ) ^ 2 + 4 ^ 2) := by
    rw [show ((3 : ℝ) ^ 2 + 4 ^ 2) = 5 ^ 2 by norm_num, Real.sqrt_sq (by norm_num : (0:ℝ) ≤ 5)]
    norm_num
  obtain ⟨h1, _, h3⟩ := (norm2d_cases 3 4).2 hgt
  exact ⟨h1, h3⟩

/-- C5: a cell is classified corner exactly when `gx ∈ {0, 10}` and
`gy ∈ {0, 10}`; `(0,0)` is a corner, `(5,0)` is not; corner cells get the
diagonal direction set, all others the cardinal set. -/
theorem corner_classification :
    (∀ gx gy : Int, is_corner gx gy = true ↔ ((gx = 0 ∨ gx = 10) ∧ (gy = 0 ∨ gy = 10))) ∧
    is_corner 0 0 = true ∧ is_corner 5 0 = false ∧
    (∀ gx gy : Int, is_corner gx gy = true → dirsFor gx gy = dirs_diagonal) ∧
    (∀ gx gy : Int, is_corner gx gy = false → dirsFor gx gy = dirs_cardinal) := by
  refine ⟨?_, rfl, rfl, ?_, ?_⟩
  · intro gx gy
    simp [is_corner]
  · intro gx gy h
    simp [dirsFor, h]
  · intro gx gy h
    simp [dirsFor, h]

/-- Witness for C5: the corner `(0, 10)` gets the diagonal set and the
non-corner `(5, 5)` gets the cardinal set. -/
theorem corner_classification_witness :
    dirsFor 0 10 = dirs_diagonal ∧ dirsFor 5 5 = dirs_cardinal :=
  ⟨corner_classification.2.2.2.1 0 10 rfl, corner_classification.2.2.2.2 5 5 rfl⟩

/-- C6: every direction yields exactly two render requests (left eye first,
then right eye), every cell has exactly 4 directions whether corner or not,
hence exactly 8 render requests per cell, and a whole job produces
`8 × number of cells` render requests. -/
theorem renders_per_cell_count :
    (∀ (pfx : String) (gx gy : Int) (cx cy cz : ℝ) (d : String × (ℝ × ℝ)),
      ∃ l r : RenderReq, rendersForDir pfx gx gy cx cy cz d = [l, r] ∧
        l.file = mkFile pfx gx gy d.1 leftTag ∧ r.file = mkFile pfx gx gy d.1 rightTag) ∧
    (∀ (pfx : String) (gx gy : Int) (cx cy cz : ℝ) (d : String × (ℝ × ℝ)),
      (rendersForDir pfx gx gy cx cy cz d).length = 2) ∧
    (∀ gx gy : Int, (dirsFor gx gy).length = 4) ∧
    (∀ (pfx : String) (gx gy : Int), (rendersForCell pfx gx gy).length = 8) ∧
    (∀ (pfx : String) (positions : List (Int × Int)),
      (runRenders pfx positions).length = 8 * positions.length) := by
  have h2 : ∀ (pfx : String) (gx gy : Int) (cx cy cz : ℝ) (d : String × (ℝ × ℝ)),
      (rendersForDir pfx gx gy cx cy cz d).length = 2 := by
    intro pfx gx gy cx cy cz d
    simp [rendersForDir]
  have h8 : ∀ (pfx : String) (gx gy : Int), (rendersForCell pfx gx gy).length = 8 := by
    intro pfx gx gy
    by_cases h : is_corner gx gy <;>
      simp [rendersForCell, dirsFor, h, dirs_cardinal, dirs_diagonal, rendersForDir]
  refine ⟨?_, h2, ?_, h8, ?_⟩
  · intro pfx gx gy cx cy cz d
    exact ⟨_, _, rfl, rfl, rfl⟩
  · intro gx gy
    by_cases h : is_corner gx gy <;> simp [dirsFor, h, dirs_cardinal, dirs_diagonal]
  · intro pfx positions
    induction positions with
    | nil => simp [runRenders]
    | cons pos rest ih =>
      simp only [runRenders, List.flatMap_cons, List.length_append, List.length_cons] at *
      rw [h8, ih]
      ring

theorem rot2d_cos_sin (phi d : ℝ) :
    rot2d (Real.cos phi) (Real.sin phi) d =
      (Real.cos (phi + radians d), Real.sin (phi + radians d)) := by
  have h1 : Real.cos (phi + radians d) =
      Real.cos phi * Real.cos (radians d) - Real.sin phi * Real.sin (radians d) :=
    Real.cos_add phi (radians d)
  have h2 : Real.sin (phi + radians d) =
      Real.cos phi * Real.sin (radians d) + Real.sin phi * Real.cos (radians d) := by
    rw [Real.sin_add]; ring
  rw [h1, h2]
  rfl

/-- C7: the two eye positions of a pose are offset from the cell center by
exactly `± rightVector * halfSeparation` with `rightVector = (fwd.y, -fwd.x)`
and `halfSeparation` half the configured total separation converted to
centimeters; both share the center's z, so their midpoint is the center. -/
theorem stereo_eye_positions_symmetric (pfx : String) (gx gy : Int) (cx cy cz : ℝ)
    (dname : String) (b : ℝ × ℝ) :
    ∃ l r : RenderReq, rendersForDir pfx gx gy cx cy cz (dname, b) = [l, r] ∧
      l.eye = (cx - b.2 * ((inches_to_cm HALF_BASE_IN : ℚ) : ℝ),
               cy - (-b.1) * ((inches_to_cm HALF_BASE_IN : ℚ) : ℝ), cz) ∧
      r.eye = (cx + b.2 * ((inches_to_cm HALF_BASE_IN : ℚ) : ℝ),
               cy + (-b.1) * ((inches_to_cm HALF_BASE_IN : ℚ) : ℝ), cz) ∧
      inches_to_cm HALF_BASE_IN = inches_to_cm (EYE_SEPARATION_IN / 2) ∧
      (l.eye.1 + r.eye.1) / 2 = cx ∧ (l.eye.2.1 + r.eye.2.1) / 2 = cy ∧
      l.eye.2.2 = cz ∧ r.eye.2.2 = cz := by
  refine ⟨_, _, rfl, rfl, rfl, rfl, ?_, ?_, rfl, rfl⟩
  · show (cx - b.2 * ((inches_to_cm HALF_BASE_IN : ℚ) : ℝ) +
      (cx + b.2 * ((inches_to_cm HALF_BASE_IN : ℚ) : ℝ))) / 2 = cx
    ring
  · show (cy - (-b.1) * ((inches_to_cm HALF_BASE_IN : ℚ) : ℝ) +
      (cy + (-b.1) * ((inches_to_cm HALF_BASE_IN : ℚ) : ℝ))) / 2 = cy
    ring

/-- C8: `rot2d` is the standard counter-clockwise rotation; the left eye's
forward is the base forward rotated by `+YAW_OFFSET_DEG` and the right eye's
by `-YAW_OFFSET_DEG` (each then pitched); on an angle-parametrized base
forward the eye yaw angles are `phi ± radians YAW_OFFSET_DEG`, which differ
by twice the yaw offset and are symmetric about the base angle. -/
theorem stereo_eye_yaw_rotation :
    (∀ vx vy d : ℝ, rot2d vx vy d =
      (vx * Real.cos (radians d) - vy * Real.sin (radians d),
       vx * Real.sin (radians d) + vy * Real.cos (radians d))) ∧
    (∀ (pfx : String) (gx gy : Int) (cx cy cz : ℝ) (dname : String) (b : ℝ × ℝ),
      ∃ l r : RenderReq, rendersForDir pfx gx gy cx cy cz (dname, b) = [l, r] ∧
        l.fwd = ((rot2d b.1 b.2 YAW_OFFSET_DEG).1 * Real.cos (radians PITCH_UP_DEG),
                 (rot2d b.1 b.2 YAW_OFFSET_DEG).2 * Real.cos (radians PITCH_UP_DEG),
                 Real.sin (radians PITCH_UP_DEG)) ∧
        r.fwd = ((rot2d b.1 b.2 (-YAW_OFFSET_DEG)).1 * Real.cos (radians PITCH_UP_DEG),
                 (rot2d b.1 b.2 (-YAW_OFFSET_DEG)).2 * Real.cos (radians PITCH_UP_DEG),
                 Real.sin (radians PITCH_UP_DEG))) ∧
    (∀ phi : ℝ,
      rot2d (Real.cos phi) (Real.sin phi) YAW_OFFSET_DEG =
        (Real.cos (phi + radians YAW_OFFSET_DEG), Real.sin (phi + radians YAW_OFFSET_DEG)) ∧
      rot2d (Real.cos phi) (Real.sin phi) (-YAW_OFFSET_DEG) =
        (Real.cos (phi - radians YAW_OFFSET_DEG), Real.sin (phi - radians YAW_OFFSET_DEG))) ∧
    (∀ phi : ℝ,
      (phi + radians YAW_OFFSET_DEG) - (phi - radians YAW_OFFSET_DEG) =
        2 * radians YAW_OFFSET_DEG ∧
      ((phi + radians YAW_OFFSET_DEG) + (phi - radians YAW_OFFSET_DEG)) / 2 = phi) := by
  refine ⟨fun _ _ _ => rfl, ?_, ?_, ?_⟩
  · intro pfx gx gy cx cy cz dname b
    exact ⟨_, _, rfl, rfl, rfl⟩
  · intro phi
    constructor
    · exact rot2d_cos_sin phi YAW_OFFSET_DEG
    · rw [rot2d_cos_sin phi (-YAW_OFFSET_DEG),
        show radians (-YAW_OFFSET_DEG) = -(radians YAW_OFFSET_DEG) from by
          simp only [radians]; ring]
      rw [← sub_eq_add_neg]
  · intro phi
    constructor <;> ring

/-- C9: parsing fails exactly when every line is blank or a comment (no
prefix line exists); otherwise the first significant line is the prefix and
the remaining lines contribute exactly their well-formed `gx,gy` pairs,
every malformed line being skipped silently. -/
theorem parse_positions_spec (rawLines : List String) :
    ((∃ e, parse_positions_txt rawLines = Except.error e) ↔
      ∀ l ∈ rawLines, skippable (pyStrip l)) ∧
    (∀ skipped p rest, rawLines = skipped ++ p :: rest →
      (∀ l ∈ skipped, skippable (pyStrip l)) → ¬ (skippable (pyStrip p) = true) →
      parse_positions_txt rawLines =
        Except.ok (pyStrip p, collectCells (rest.map pyStrip))) := by
  constructor
  · have hbridge : (∃ e, parse_positions_txt rawLines = Except.error e) ↔
        (parseLoop none [] (rawLines.map pyStrip)).1 = none := by
      rcases hres : parseLoop none [] (rawLines.map pyStrip) with ⟨pfx?, ps⟩
      cases pfx? with
      | none => simp [parse_positions_txt, hres]
      | some p => simp [parse_positions_txt, hres]
    rw [hbridge, parseLoop_none_eq_none_iff]
    simp
  · intro skipped p rest hsplit hsk hp
    subst hsplit
    have hmap : (skipped ++ p :: rest).map pyStrip =
        skipped.map pyStrip ++ pyStrip p :: rest.map pyStrip := by simp
    have hfound := parseLoop_none_found (pyStrip p) (skipped.map pyStrip)
      (rest.map pyStrip)
      (fun x hx => by
        obtain ⟨y, hy, rfl⟩ := List.mem_map.mp hx
        exact hsk y hy) hp
    simp only [parse_positions_txt, hmap, hfound]

/-- Witness for C9: a comment line, then the prefix, then one good pair, one
malformed line and one spaced pair. -/
theorem parse_positions_spec_witness :
    parse_positions_txt ["# c", "job", "1,2", "garbage", "3, 4"] =
      Except.ok ("job", [((1 : Int), (2 : Int)), (3, 4)]) := by
  have h := (parse_positions_spec ["# c", "job", "1,2", "garbage", "3, 4"]).2
    ["# c"] "job" ["1,2", "garbage", "3, 4"] rfl (by decide) (by decide)
  rw [h]
  rfl

/-- C10: the six geometric core functions of `src/capture.py` agree
extensionally with the identically named functions of
`src/CaptureView/CaptureView.py`, and the two variants use the same knot
tables and geometry constants. -/
theorem variants_extensionally_equal :
    (∀ (index : Int) (km : List (Int × ℚ)),
      interp_linear index km = CaptureView.interp_linear index km) ∧
    (∀ gx gy : Int, grid_to_model_in gx gy = CaptureView.grid_to_model_in gx gy) ∧
    (∀ x : ℚ, inches_to_cm x = CaptureView.inches_to_cm x) ∧
    (∀ vx vy d : ℝ, rot2d vx vy d = CaptureView.rot2d vx vy d) ∧
    (∀ vx vy : ℝ, norm2d vx vy = CaptureView.norm2d vx vy) ∧
    (∀ gx gy : Int, is_corner gx gy = CaptureView.is_corner gx gy) ∧
    X_FROM_GRID_Y_IN = CaptureView.X_FROM_GRID_Y_IN ∧
    Y_FROM_GRID_X_IN = CaptureView.Y_FROM_GRID_X_IN ∧
    CM_PER_IN = CaptureView.CM_PER_IN ∧ GRID_Z_IN = CaptureView.GRID_Z_IN ∧
    EYE_RAISE_IN = CaptureView.EYE_RAISE_IN ∧ EYE_Z_IN = CaptureView.EYE_Z_IN ∧
    EYE_SEPARATION_IN = CaptureView.EYE_SEPARATION_IN ∧
    HALF_BASE_IN = CaptureView.HALF_BASE_IN ∧
    YAW_OFFSET_DEG = CaptureView.YAW_OFFSET_DEG ∧
    PITCH_UP_DEG = CaptureView.PITCH_UP_DEG ∧ VFOV_DEG = CaptureView.VFOV_DEG ∧
    IMG_W = CaptureView.IMG_W ∧ IMG_H = CaptureView.IMG_H :=
  ⟨fun _ _ => rfl, fun _ _ => rfl, fun _ => rfl, fun _ _ _ => rfl, fun _ _ => rfl,
   fun _ _ => rfl, rfl, rfl, rfl, rfl, rfl, rfl, rfl, rfl, rfl, rfl, rfl, rfl, rfl⟩
